import Mathlib

/-
Verification of the www-app middleware pipeline (app-www/app-www.js).

The file shallowly embeds the middleware configured in app-www.js:
the body normalizer cleanPost, the error boundary handleErrors, the domain
extractor ctxAddDomain, the terminal notFound fallback, the access logger
logAccess, and the static-file cache lifetime maxage.  Middleware is
modelled as state passing over an explicit response value; a thrown
JavaScript exception is an Except.error carrying the error value.
-/

namespace AppWww

/-- JavaScript values as they occur in a parsed request body: strings,
null, numbers, booleans, and objects (which also cover the file entries
produced by koa-body, whose typeof is "object").  Only the distinctions
the code observes (typeof v == "string", string contents, key structure)
are represented. -/
inductive JSVal where
  | vStr (s : String)
  | vNull
  | vNum (n : Int)
  | vBool (b : Bool)
  | vObj (entries : List (String × JSVal))

/-- A JavaScript object is a finite association of keys to values; keys
are unique in JavaScript, and lookups below take the first binding. -/
abbrev Body := List (String × JSVal)

/-- The check typeof body[key] == "string" from the cleanPost loop. -/
def isString : JSVal → Bool
  | .vStr _ => true
  | _ => false

/-- Whitespace trimming on the character list of a string: drops leading
and trailing whitespace characters, modelling JavaScript String.trim
(restricted to ASCII whitespace, which is all the claims exercise). -/
def trimChars (s : List Char) : List Char :=
  ((s.dropWhile Char.isWhitespace).reverse.dropWhile Char.isWhitespace).reverse

/-- JavaScript body[key].trim(). -/
def jsTrim (s : String) : String := String.mk (trimChars s.data)

/-- The body of the cleanPost loop for one field: a string value is
trimmed, and replaced by null when the trimmed value equals the empty
string; any non-string value is left unchanged. -/
def cleanValue : JSVal → JSVal
  | .vStr s => if jsTrim s = "" then .vNull else .vStr (jsTrim s)
  | v => v

/-- The cleanPost for-in loop over a whole object: every field is
rewritten by cleanValue (which moves non-strings across unchanged). -/
def cleanBody (b : Body) : Body :=
  b.map (fun kv => (kv.1, cleanValue kv.2))

/-- The JavaScript key-presence test ("fields" in body). -/
def hasKey (b : Body) (k : String) : Bool :=
  b.any (fun kv => kv.1 == k)

/-- Property lookup body[k]: the first binding of k, if any. -/
def getKey : Body → String → Option JSVal
  | [], _ => none
  | kv :: rest, k => if kv.1 = k then some kv.2 else getKey rest k

/-- The for-in loop applied through the reference body.fields: when the
value is an object its entries are cleaned; for-in over a non-object
enumerates no own enumerable properties, so anything else is unchanged
(the theorems below only use the object case, the shape koa-body
produces). -/
def cleanInner : JSVal → JSVal
  | .vObj entries => .vObj (cleanBody entries)
  | v => v

/-- The multipart branch of cleanPost: the loop runs over the aliased
ctx.request.body.fields object and mutates it in place, so the overall
body keeps every entry, with the value bound at "fields" cleaned. -/
def cleanFieldsEntry (b : Body) : Body :=
  b.map (fun kv => if kv.1 = "fields" then (kv.1, cleanInner kv.2) else kv)

/-- Embeds cleanPost (app-www.js lines 68-81).  With no parsed body
(ctx.request.body === undefined) it is a no-op.  Otherwise multipart
holds exactly when both "fields" and "files" are keys of the body; in
that case the cleaning happens through the "fields" entry; otherwise
the loop runs over the body itself. -/
def cleanPost : Option Body → Option Body
  | none => none
  | some b =>
    if hasKey b "fields" && hasKey b "files" then some (cleanFieldsEntry b)
    else some (cleanBody b)

/-- A thrown JavaScript error value as the error boundary observes it:
an optional numeric status (e.status) and a message (e.message). -/
structure ErrorVal where
  status : Option Nat
  message : String
deriving DecidableEq

/-- The template context passed to ctx.render by the error boundary:
either the 404 context object with its msg field, or the 500 context
object, empty (none) in production and carrying the error otherwise. -/
inductive RenderContext where
  | notFoundCtx (msg : Option String)
  | errorCtx (e : Option ErrorVal)
deriving DecidableEq

/-- The response-relevant part of the Koa context: the status set so
far, the rendered body (view name and template context) if any, and the
list of error events emitted on the application. -/
structure Response where
  status : Option Nat
  body : Option (String × RenderContext)
  emitted : List ErrorVal
deriving DecidableEq

/-- A middleware stage downstream of the error boundary: it either
completes with an updated response or throws an error value. -/
abbrev Middleware := Response → Except ErrorVal Response

/-- The JavaScript expression e.status || 500: absent status, and the
falsy status 0, default to 500. -/
def jsOrStatus : Option Nat → Nat
  | none => 500
  | some n => if n = 0 then 500 else n

/-- Embeds handleErrors (app-www.js lines 43-64): it awaits the
downstream chain inside try; a completed downstream result is returned
as is; a thrown e sets ctx.status = e.status || 500 and switches on it:
case 404 renders "404-not-found" with msg null when e.message is the
generic "Not Found"; every other status renders
"500-internal-server-error" with an empty context in production (the
full error otherwise) and also emits an "error" application event. -/
def handleErrors (env : String) (next : Middleware) (ctx : Response) :
    Except ErrorVal Response :=
  match next ctx with
  | .ok ctx' => .ok ctx'
  | .error e =>
    let st := jsOrStatus e.status
    if st = 404 then
      .ok { ctx with
        status := some st,
        body := some ("404-not-found",
          RenderContext.notFoundCtx
            (if e.message = "Not Found" then none else some e.message)) }
    else
      .ok { ctx with
        status := some st,
        body := some ("500-internal-server-error",
          RenderContext.errorCtx (if env = "production" then none else some e)),
        emitted := ctx.emitted ++ [e] }

/-- Embeds the terminal notFound middleware (app-www.js lines 112-114):
it takes no next and always runs ctx.throw(404), which per Koa throws an
error with status 404 and the standard message "Not Found". -/
def notFound : Middleware :=
  fun _ => .error { status := some 404, message := "Not Found" }

/-- First-occurrence substring replacement on character lists, the
semantics of JavaScript String.replace with a string pattern (which
replaces only the first occurrence, anywhere in the string). -/
def replaceFirst : List Char → List Char → List Char → List Char
  | s, pat, repl =>
    if pat.isPrefixOf s then repl ++ s.drop pat.length
    else match s with
      | [] => []
      | c :: rest => c :: replaceFirst rest pat repl

/-- Whether pat occurs as a contiguous substring of s, following the
same scan as replaceFirst. -/
def containsSub : List Char → List Char → Bool
  | s, pat =>
    if pat.isPrefixOf s then true
    else match s with
      | [] => false
      | _ :: rest => containsSub rest pat

/-- Embeds ctxAddDomain (app-www.js lines 101-104): the domain stored in
ctx.state.domain is ctx.host.replace("www.", ""). -/
def ctxAddDomain (host : String) : String :=
  String.mk (replaceFirst host.data "www.".data [])

/-- Embeds the static-file cache lifetime (app-www.js line 20):
const maxage = app.env == "production" ? 1000*60*60*24 : 1000. -/
def maxage (env : String) : Nat :=
  if env = "production" then 1000*60*60*24 else 1000

/-- An observable effect during the processing of one request: either
some effect performed by the downstream pipeline, or one invocation of
the external Log.access sink with the computed duration. -/
inductive Event where
  | effect (tag : Nat)
  | accessLogged (duration : Int)
deriving DecidableEq

/-- Recognizes an invocation of the Log.access sink in a trace. -/
def isAccessLogged : Event → Bool
  | .accessLogged _ => true
  | _ => false

/-- Embeds logAccess (app-www.js lines 25-31): t1 = Date.now();
await next(); t2 = Date.now(); await Log.access(ctx, t2 - t1).  The
downstream pipeline is represented by the trace of effects it performs
before returning; the single Log.access call is appended after the
whole downstream trace, with duration t2 - t1. -/
def logAccess (t1 t2 : Nat) (nextTrace : List Event) : List Event :=
  nextTrace ++ [Event.accessLogged ((t2 : Int) - (t1 : Int))]

/-- The middleware registered on the app, one tag per app.use call, in
source order (app-www.js lines 21-114). -/
inductive MiddlewareTag where
  | serveStatic
  | logAccessTag
  | handlebarsTag
  | handleErrorsTag
  | cleanPostTag
  | flashTag
  | luscaTag
  | ctxAddDomainTag
  | routesWww
  | notFoundTag
deriving DecidableEq

/-- The pipeline as configured in app-www.js, outermost first. -/
def pipeline : List MiddlewareTag :=
  [.serveStatic, .logAccessTag, .handlebarsTag, .handleErrorsTag,
   .cleanPostTag, .flashTag, .luscaTag, .ctxAddDomainTag, .routesWww,
   .notFoundTag]

/-- Recognizes an error boundary: only handleErrors wraps its downstream
in try/catch. -/
def isErrorBoundary : MiddlewareTag → Bool
  | .handleErrorsTag => true
  | _ => false

/-- Observed status of a middleware outcome: the status of the response
when the stage completed, none when it threw. -/
def resultStatus : Except ErrorVal Response → Option Nat
  | .ok r => r.status
  | .error _ => none

/-- Observed rendered view of a middleware outcome: the view name passed
to ctx.render, if a body was rendered. -/
def renderedView : Except ErrorVal Response → Option String
  | .ok r => r.body.map (fun bc => bc.1)
  | .error _ => none

/-- Whether a middleware outcome has both a status and a rendered body,
i.e. the response is finalized. -/
def finalized : Except ErrorVal Response → Bool
  | .ok r => r.status.isSome && r.body.isSome
  | .error _ => false

theorem getKey_cleanBody (b : Body) (k : String) :
    getKey (cleanBody b) k = (getKey b k).map cleanValue := by
  induction b with
  | nil => rfl
  | cons kv rest ih =>
    by_cases h : kv.1 = k
    · simp [cleanBody, getKey, h]
    · simpa [cleanBody, getKey, h] using ih

theorem getKey_cleanFieldsEntry_ne (b : Body) (k : String) (hk : k ≠ "fields") :
    getKey (cleanFieldsEntry b) k = getKey b k := by
  induction b with
  | nil => rfl
  | cons kv rest ih =>
    by_cases h2 : kv.1 = k
    · have h1 : ¬ kv.1 = "fields" := by rw [h2]; exact hk
      simp [cleanFieldsEntry, getKey, h1, h2, hk]
    · by_cases h1 : kv.1 = "fields" <;>
        simpa [cleanFieldsEntry, getKey, h1, h2, Ne.symm hk] using ih

theorem getKey_cleanFieldsEntry_fields (b : Body) :
    getKey (cleanFieldsEntry b) "fields" = (getKey b "fields").map cleanInner := by
  induction b with
  | nil => rfl
  | cons kv rest ih =>
    by_cases h1 : kv.1 = "fields"
    · simp [cleanFieldsEntry, getKey, h1]
    · simpa [cleanFieldsEntry, getKey, h1] using ih

theorem cleanPost_multipart (b : Body) (h1 : hasKey b "fields" = true)
    (h2 : hasKey b "files" = true) :
    cleanPost (some b) = some (cleanFieldsEntry b) := by
  simp [cleanPost, h1, h2]

theorem cleanPost_flat (b : Body)
    (h : ¬(hasKey b "fields" = true ∧ hasKey b "files" = true)) :
    cleanPost (some b) = some (cleanBody b) := by
  have hb : (hasKey b "fields" && hasKey b "files") = false := by
    rcases Bool.eq_false_or_eq_true (hasKey b "fields") with hf | hf <;>
      rcases Bool.eq_false_or_eq_true (hasKey b "files") with hg | hg <;>
      simp [hf, hg] at h ⊢
  simp [cleanPost, hb]

theorem isPrefixOf_append_self (pat rest : List Char) :
    pat.isPrefixOf (pat ++ rest) = true := by
  induction pat with
  | nil => cases rest <;> rfl
  | cons c cs ih => simp [List.isPrefixOf, ih]

theorem replaceFirst_append_self (pat rest repl : List Char) :
    replaceFirst (pat ++ rest) pat repl = repl ++ rest := by
  rw [replaceFirst.eq_def]
  simp [isPrefixOf_append_self, List.drop_left]

theorem replaceFirst_no_occurrence (s pat repl : List Char)
    (h : containsSub s pat = false) : replaceFirst s pat repl = s := by
  induction s with
  | nil =>
    rw [containsSub.eq_def] at h
    rw [replaceFirst.eq_def]
    by_cases hp : pat.isPrefixOf ([] : List Char) = true
    · simp [hp] at h
    · simp [hp]
  | cons c rest ih =>
    rw [containsSub.eq_def] at h
    rw [replaceFirst.eq_def]
    by_cases hp : pat.isPrefixOf (c :: rest) = true
    · simp [hp] at h
    · simp only [hp, if_false, Bool.false_eq_true] at h ⊢
      simp [ih h]

theorem ctxAddDomain_of_no_occurrence (host : String)
    (h : containsSub host.data "www.".data = false) :
    ctxAddDomain host = host := by
  show String.mk (replaceFirst host.data "www.".data []) = host
  rw [replaceFirst_no_occurrence host.data "www.".data [] h]

theorem ctxAddDomain_strips_www (rest : String) :
    ctxAddDomain ("www." ++ rest) = rest := by
  show String.mk (replaceFirst ("www." ++ rest).data "www.".data []) = rest
  have hdata : ("www." ++ rest).data = "www.".data ++ rest.data := rfl
  rw [hdata, replaceFirst_append_self]
  rfl

/-- Claim C1: the body normalizer is a no-op when no body was parsed; a
string-valued field is trimmed and becomes null when it is the empty
string after trimming, a non-string field is unchanged; a flat body (one
that does not carry both the "fields" and the "files" key) is normalized
fieldwise, and on a multipart-shaped body the "files" entry is untouched
while the fields sub-map is normalized fieldwise in the same way. -/
theorem C1_cleanPost_normalizes :
    cleanPost none = none
    ∧ (∀ s, cleanValue (JSVal.vStr s)
        = (if jsTrim s = "" then JSVal.vNull else JSVal.vStr (jsTrim s)))
    ∧ (∀ v, isString v = false → cleanValue v = v)
    ∧ (∀ b k, ¬(hasKey b "fields" = true ∧ hasKey b "files" = true) →
        cleanPost (some b) = some (cleanBody b)
        ∧ getKey (cleanBody b) k = (getKey b k).map cleanValue)
    ∧ (∀ b f, hasKey b "fields" = true → hasKey b "files" = true →
        getKey b "fields" = some (JSVal.vObj f) →
        cleanPost (some b) = some (cleanFieldsEntry b)
        ∧ getKey (cleanFieldsEntry b) "files" = getKey b "files"
        ∧ getKey (cleanFieldsEntry b) "fields" = some (JSVal.vObj (cleanBody f))
        ∧ (∀ k, getKey (cleanBody f) k = (getKey f k).map cleanValue)) := by
  refine ⟨rfl, fun s => rfl, ?_, ?_, ?_⟩
  · intro v hv
    cases v <;> first | rfl | simp [isString] at hv
  · intro b k hmp
    exact ⟨cleanPost_flat b hmp, getKey_cleanBody b k⟩
  · intro b f h1 h2 hf
    refine ⟨cleanPost_multipart b h1 h2,
      getKey_cleanFieldsEntry_ne b "files" (by decide), ?_,
      fun k => getKey_cleanBody f k⟩
    rw [getKey_cleanFieldsEntry_fields, hf]
    rfl

/-- Witness for C1: a concrete flat body with a paddable string, a blank
string and a number is normalized as the claim states. -/
theorem C1_witness :
    cleanPost (some [("a", JSVal.vStr " x "), ("b", JSVal.vStr ""),
        ("n", JSVal.vNum 3)])
      = some [("a", JSVal.vStr "x"), ("b", JSVal.vNull), ("n", JSVal.vNum 3)]
    ∧ getKey (cleanBody [("a", JSVal.vStr " x ")]) "a" = some (JSVal.vStr "x") := by
  have h := C1_cleanPost_normalizes.2.2.2.1
      [("a", JSVal.vStr " x "), ("b", JSVal.vStr ""), ("n", JSVal.vNum 3)] "a"
      (by decide)
  have h2 := C1_cleanPost_normalizes.2.2.2.1 [("a", JSVal.vStr " x ")] "a"
      (by decide)
  refine ⟨?_, ?_⟩
  · rw [h.1]; rfl
  · rw [h2.2]; rfl

/-- Claim C10: a parsed body is treated as multipart exactly when it has
both a "fields" and a "files" key; for a flat body carrying both keys only
the entries of its "fields" sub-object are normalized while every other
top-level field is untouched, and a body with only one of the two keys is
normalized as a flat map. -/
theorem C10_multipart_detection :
    (∀ b, hasKey b "fields" = true → hasKey b "files" = true →
        cleanPost (some b) = some (cleanFieldsEntry b))
    ∧ (∀ b k, k ≠ "fields" → getKey (cleanFieldsEntry b) k = getKey b k)
    ∧ (∀ b f, getKey b "fields" = some (JSVal.vObj f) →
        getKey (cleanFieldsEntry b) "fields" = some (JSVal.vObj (cleanBody f)))
    ∧ (∀ b, (hasKey b "fields" = false ∨ hasKey b "files" = false) →
        cleanPost (some b) = some (cleanBody b)) := by
  refine ⟨fun b h1 h2 => cleanPost_multipart b h1 h2,
    fun b k hk => getKey_cleanFieldsEntry_ne b k hk, ?_, ?_⟩
  · intro b f hf
    rw [getKey_cleanFieldsEntry_fields, hf]
    rfl
  · intro b hor
    refine cleanPost_flat b ?_
    rintro ⟨h1, h2⟩
    rcases hor with h | h
    · rw [h1] at h; exact Bool.noConfusion h
    · rw [h2] at h; exact Bool.noConfusion h

/-- Witness for C10: a flat body carrying both special keys is treated as
multipart, so its other top-level string field stays padded while the
fields sub-object is cleaned; dropping the "files" key makes the same
shape clean as a flat map, trimming the top-level string field. -/
theorem C10_witness :
    cleanPost (some [("fields", JSVal.vObj [("a", JSVal.vStr " x ")]),
        ("files", JSVal.vObj []), ("other", JSVal.vStr " y ")])
      = some [("fields", JSVal.vObj [("a", JSVal.vStr "x")]),
        ("files", JSVal.vObj []), ("other", JSVal.vStr " y ")]
    ∧ cleanPost (some [("fields", JSVal.vObj [("a", JSVal.vStr " x ")]),
        ("other", JSVal.vStr " y ")])
      = some [("fields", JSVal.vObj [("a", JSVal.vStr " x ")]),
        ("other", JSVal.vStr "y")] := by
  have h1 := C10_multipart_detection.1
      [("fields", JSVal.vObj [("a", JSVal.vStr " x ")]),
        ("files", JSVal.vObj []), ("other", JSVal.vStr " y ")]
      (by decide) (by decide)
  have h2 := C10_multipart_detection.2.2.2
      [("fields", JSVal.vObj [("a", JSVal.vStr " x ")]),
        ("other", JSVal.vStr " y ")]
      (Or.inr (by decide))
  refine ⟨?_, ?_⟩
  · rw [h1]; rfl
  · rw [h2]; rfl

/-- Claim C2: exactly one error boundary is configured in the pipeline;
for every downstream middleware the boundary never lets an exception
escape, and whenever the downstream middleware throws, the boundary
returns a response finalized with both a status code and a rendered
body. -/
theorem C2_error_boundary :
    List.countP isErrorBoundary pipeline = 1
    ∧ (∀ env : String, ∀ next : Middleware, ∀ ctx : Response,
        (handleErrors env next ctx).isOk = true)
    ∧ (∀ env : String, ∀ next : Middleware, ∀ ctx : Response, ∀ e : ErrorVal,
        next ctx = Except.error e →
        finalized (handleErrors env next ctx) = true) := by
  refine ⟨by decide, ?_, ?_⟩
  · intro env next ctx
    cases hn : next ctx with
    | ok r => simp [handleErrors, hn, Except.isOk, Except.toBool]
    | error e =>
      by_cases h404 : jsOrStatus e.status = 404 <;>
        simp [handleErrors, hn, h404, Except.isOk, Except.toBool]
  · intro env next ctx e hn
    by_cases h404 : jsOrStatus e.status = 404 <;>
      simp [handleErrors, hn, h404, finalized]

/-- Witness for C2: the boundary finalizes the response when the
downstream stage throws a status-less error. -/
theorem C2_witness :
    finalized (handleErrors "production"
      (fun _ => Except.error { status := none, message := "boom" })
      { status := none, body := none, emitted := [] }) = true :=
  C2_error_boundary.2.2 "production"
    (fun _ => Except.error { status := none, message := "boom" })
    { status := none, body := none, emitted := [] }
    { status := none, message := "boom" } rfl

/-- Claim C3: when the downstream middleware throws an error whose status
is 404, the boundary renders the not-found view, with msg null when the
message is the generic "Not Found" and the original message otherwise. -/
theorem C3_renders_not_found (env : String) (next : Middleware)
    (ctx : Response) (e : ErrorVal) (hn : next ctx = Except.error e)
    (hs : e.status = some 404) :
    handleErrors env next ctx
      = Except.ok { ctx with
          status := some 404,
          body := some ("404-not-found",
            RenderContext.notFoundCtx
              (if e.message = "Not Found" then none else some e.message)) } := by
  simp [handleErrors, hn, hs, jsOrStatus]

/-- Witness for C3: a 404 error with a custom message renders the
not-found view carrying that message. -/
theorem C3_witness :
    handleErrors "production"
        (fun _ => Except.error { status := some 404, message := "no such page" })
        { status := none, body := none, emitted := [] }
      = Except.ok {
          status := some 404,
          body := some ("404-not-found",
            RenderContext.notFoundCtx (some "no such page")),
          emitted := [] } := by
  have h := C3_renders_not_found "production"
      (fun _ => Except.error { status := some 404, message := "no such page" })
      { status := none, body := none, emitted := [] }
      { status := some 404, message := "no such page" } rfl rfl
  rw [h]
  rfl

/-- Claim C4: when the thrown error has no status the response status
becomes 500; for every effective status other than 404 (including that
default) the boundary renders the internal-error view, with an empty
context in production mode and the full error otherwise, and emits an
error event on the application. -/
theorem C4_internal_error (env : String) (next : Middleware)
    (ctx : Response) (e : ErrorVal) (hn : next ctx = Except.error e) :
    (e.status = none →
        handleErrors env next ctx
          = Except.ok { ctx with
              status := some 500,
              body := some ("500-internal-server-error",
                RenderContext.errorCtx
                  (if env = "production" then none else some e)),
              emitted := ctx.emitted ++ [e] })
    ∧ (jsOrStatus e.status ≠ 404 →
        handleErrors env next ctx
          = Except.ok { ctx with
              status := some (jsOrStatus e.status),
              body := some ("500-internal-server-error",
                RenderContext.errorCtx
                  (if env = "production" then none else some e)),
              emitted := ctx.emitted ++ [e] }) := by
  constructor
  · intro hs
    simp [handleErrors, hn, hs, jsOrStatus]
  · intro h404
    simp [handleErrors, hn, h404]

/-- Witness for C4: a status-less error yields status 500 with the
internal-error view, an empty production context and one emitted error
event. -/
theorem C4_witness :
    handleErrors "production"
        (fun _ => Except.error { status := none, message := "oops" })
        { status := none, body := none, emitted := [] }
      = Except.ok {
          status := some 500,
          body := some ("500-internal-server-error",
            RenderContext.errorCtx none),
          emitted := [{ status := none, message := "oops" }] } := by
  have h := (C4_internal_error "production"
      (fun _ => Except.error { status := none, message := "oops" })
      { status := none, body := none, emitted := [] }
      { status := none, message := "oops" } rfl).1 rfl
  rw [h]
  rfl

/-- Counterexample for C5: an error carrying status 403 is caught by the
boundary and leaves the response with status 403, which is neither 404
nor 500, so non-404 caught statuses are not normalized to 500. -/
theorem C5_counterexample :
    resultStatus (handleErrors "production"
        (fun _ => Except.error { status := some 403, message := "Forbidden" })
        { status := none, body := none, emitted := [] }) = some 403
    ∧ some (403 : Nat) ≠ some (404 : Nat)
    ∧ some (403 : Nat) ≠ some (500 : Nat) := by
  refine ⟨rfl, by decide, by decide⟩

/-- Claim C5 as amended: every caught error yields exactly one of two
rendered views, the not-found view precisely when the effective status
e.status || 500 equals 404 and the internal-error view otherwise; an
absent status is normalized to 500, while a present nonzero status is
kept unchanged as the response status. -/
theorem C5_amended_two_classes (env : String) (next : Middleware)
    (ctx : Response) (e : ErrorVal) (hn : next ctx = Except.error e) :
    (renderedView (handleErrors env next ctx) = some "404-not-found"
      ∨ renderedView (handleErrors env next ctx)
          = some "500-internal-server-error")
    ∧ (renderedView (handleErrors env next ctx) = some "404-not-found"
        ↔ jsOrStatus e.status = 404)
    ∧ resultStatus (handleErrors env next ctx) = some (jsOrStatus e.status)
    ∧ (e.status = none → jsOrStatus e.status = 500)
    ∧ (∀ s : Nat, s ≠ 0 → jsOrStatus (some s) = s) := by
  have hfour : ∀ s : Nat, s ≠ 0 → jsOrStatus (some s) = s := by
    intro s hs
    simp [jsOrStatus, hs]
  have habsent : e.status = none → jsOrStatus e.status = 500 := by
    intro hs
    rw [hs]
    rfl
  by_cases h404 : jsOrStatus e.status = 404
  · have hres : handleErrors env next ctx
        = Except.ok { ctx with
            status := some (jsOrStatus e.status),
            body := some ("404-not-found",
              RenderContext.notFoundCtx
                (if e.message = "Not Found" then none else some e.message)) } := by
      simp [handleErrors, hn, h404]
    refine ⟨Or.inl ?_, ?_, ?_, habsent, hfour⟩
    · rw [hres]; rfl
    · exact ⟨fun _ => h404, fun _ => by rw [hres]; rfl⟩
    · rw [hres]; rfl
  · have hres : handleErrors env next ctx
        = Except.ok { ctx with
            status := some (jsOrStatus e.status),
            body := some ("500-internal-server-error",
              RenderContext.errorCtx
                (if env = "production" then none else some e)),
            emitted := ctx.emitted ++ [e] } := by
      simp [handleErrors, hn, h404]
    refine ⟨Or.inr ?_, ?_, ?_, habsent, hfour⟩
    · rw [hres]; rfl
    · constructor
      · intro hv
        rw [hres] at hv
        simp [renderedView] at hv
      · intro h
        exact absurd h h404
    · rw [hres]; rfl

/-- Witness for C5 as amended: a 403 error renders the internal-error
view and keeps status 403. -/
theorem C5_amended_witness :
    (renderedView (handleErrors "production"
        (fun _ => Except.error { status := some 403, message := "Forbidden" })
        { status := none, body := none, emitted := [] })
        = some "404-not-found"
      ∨ renderedView (handleErrors "production"
        (fun _ => Except.error { status := some 403, message := "Forbidden" })
        { status := none, body := none, emitted := [] })
        = some "500-internal-server-error") :=
  (C5_amended_two_classes "production"
    (fun _ => Except.error { status := some 403, message := "Forbidden" })
    { status := none, body := none, emitted := [] }
    { status := some 403, message := "Forbidden" } rfl).1

/-- Counterexample for C6: the host "awww.example.com" does not start
with "www.", yet the extractor changes it into "aexample.com", because
the code removes the first occurrence of "www." anywhere in the host,
not only a "www." prefix. -/
theorem C6_counterexample :
    ctxAddDomain "awww.example.com" = "aexample.com"
    ∧ List.isPrefixOf "www.".data "awww.example.com".data = false
    ∧ ("aexample.com" : String) ≠ "awww.example.com" := by
  refine ⟨by decide, by decide, by decide⟩

/-- Claim C6 as amended: the domain extractor removes the first
occurrence of the literal substring "www." anywhere in the host (in
particular a "www." prefix), and leaves a host with no such occurrence
unchanged; host "www.example.com" yields "example.com" and host
"example.com" is stored unchanged. -/
theorem C6_amended_domain :
    (∀ rest : String, ctxAddDomain ("www." ++ rest) = rest)
    ∧ (∀ host : String, containsSub host.data "www.".data = false →
        ctxAddDomain host = host)
    ∧ ctxAddDomain "www.example.com" = "example.com"
    ∧ ctxAddDomain "example.com" = "example.com"
    ∧ ctxAddDomain "awww.example.com" = "aexample.com" := by
  refine ⟨ctxAddDomain_strips_www,
    fun host h => ctxAddDomain_of_no_occurrence host h,
    by decide, by decide, by decide⟩

/-- Witness for C6 as amended: "example.com" has no occurrence of
"www." and is stored unchanged. -/
theorem C6_amended_witness :
    containsSub "example.com".data "www.".data = false
    ∧ ctxAddDomain "example.com" = "example.com" :=
  ⟨by decide, C6_amended_domain.2.1 "example.com" (by decide)⟩

/-- Claim C7: the terminal fallback middleware always throws status 404
with the generic "Not Found" message, and composed with the error
boundary the final response has status 404 and the not-found view
rendered with a null message. -/
theorem C7_not_found_fallback (env : String) (ctx : Response) :
    notFound ctx = Except.error { status := some 404, message := "Not Found" }
    ∧ handleErrors env notFound ctx
      = Except.ok { ctx with
          status := some 404,
          body := some ("404-not-found", RenderContext.notFoundCtx none) } := by
  exact ⟨rfl, rfl⟩

/-- Claim C8: for every request reaching the access logger, the external
log sink is invoked exactly once, strictly after the whole downstream
trace, and, the wall clock being sampled after completion no earlier
than before, the logged duration t2 - t1 is non-negative. -/
theorem C8_log_access (t1 t2 : Nat) (tr : List Event) (h : t1 ≤ t2) :
    logAccess t1 t2 tr = tr ++ [Event.accessLogged ((t2 : Int) - (t1 : Int))]
    ∧ 0 ≤ (t2 : Int) - (t1 : Int)
    ∧ List.countP isAccessLogged (logAccess t1 t2 tr)
        = List.countP isAccessLogged tr + 1
    ∧ (List.countP isAccessLogged tr = 0 →
        List.countP isAccessLogged (logAccess t1 t2 tr) = 1) := by
  refine ⟨rfl, by omega, ?_, ?_⟩
  · simp [logAccess, List.countP_append, List.countP_cons, isAccessLogged]
  · intro h0
    simp [logAccess, List.countP_append, List.countP_cons, isAccessLogged, h0]

/-- Witness for C8: with samples 3 and 5 around one downstream effect
the duration is non-negative and the sink is invoked exactly once. -/
theorem C8_witness :
    0 ≤ ((5 : Nat) : Int) - ((3 : Nat) : Int)
    ∧ List.countP isAccessLogged (logAccess 3 5 [Event.effect 0]) = 1 :=
  ⟨(C8_log_access 3 5 [Event.effect 0] (by decide)).2.1,
    (C8_log_access 3 5 [Event.effect 0] (by decide)).2.2.2 (by decide)⟩

/-- Claim C9: the static-file browser cache lifetime is one day
(86400000 milliseconds) when the application environment is production
and one second (1000 milliseconds) in every other environment. -/
theorem C9_maxage :
    maxage "production" = 86400000
    ∧ (∀ env : String, env ≠ "production" → maxage env = 1000) := by
  constructor
  · rfl
  · intro env h
    simp [maxage, h]

/-- Witness for C9: a non-production environment gets a one-second cache
lifetime. -/
theorem C9_witness : maxage "development" = 1000 :=
  C9_maxage.2 "development" (by decide)

end AppWww
